import Mathlib

/-!
Verification of the KGML pathway-map reader (`KGML_parser.py`) against its
natural-language specification.

The XML input is modelled as an already well-formed element tree (`XElem`):
a tag, an attribute mapping, and an ordered list of children.  Python
exceptions are modelled by `Except PErr`; `KeyError` from `attrib[k]` is
`PErr.keyError k`, a failing `int(s)` is `PErr.valueError s`, and the three
reader-level errors get their own constructors.

The document-model classes (`KGML_pathway.py`) are not part of the sources;
the few operations of theirs that the parser calls (`add_entry`,
`add_graphics`, `add_component`, `add_substrate`, `add_product`, the
back-references held by `Graphics`/`Component`) are modelled from the spec,
as marked on each definition.
-/

deriving instance DecidableEq for Except

namespace KGML

/-- An XML element: tag, attribute list (XML attribute names are unique;
lookup takes the first match), and ordered children. -/
inductive XElem where
  | mk (tag : String) (attrib : List (String × String)) (children : List XElem)
deriving Repr

def XElem.tag : XElem → String
  | .mk t _ _ => t

def XElem.attrib : XElem → List (String × String)
  | .mk _ a _ => a

def XElem.children : XElem → List XElem
  | .mk _ _ cs => cs

/-- Lookup of an attribute value, modelling Python `element.attrib[k]`
(returning `none` where Python raises `KeyError`). -/
def alookup : List (String × String) → String → Option String
  | [], _ => none
  | (k2, v) :: rest, k => if k2 = k then some v else alookup rest k

/-- Python exceptions raised by the reader. -/
inductive PErr where
  | keyError (key : String)
  | valueError (s : String)
  | noPathways
  | multiplePathways
  | unsupportedInput
deriving Repr, DecidableEq

def digitsToNat (cs : List Char) : Nat :=
  cs.foldl (fun a c => a * 10 + (c.toNat - 48)) 0

/-- Surrounding-whitespace stripping, on the character list. -/
def stripWs (cs : List Char) : List Char :=
  ((cs.dropWhile Char.isWhitespace).reverse.dropWhile Char.isWhitespace).reverse

/-- Python `int(s)` on a string: strip surrounding whitespace, then an
optional sign followed by one or more decimal digits; anything else raises
`ValueError` (here: `none`). -/
def pyInt (s : String) : Option Int :=
  match stripWs s.toList with
  | [] => none
  | c :: rest =>
    if c = '-' then
      if rest ≠ [] ∧ rest.all Char.isDigit then some (-(digitsToNat rest : Int)) else none
    else if c = '+' then
      if rest ≠ [] ∧ rest.all Char.isDigit then some (digitsToNat rest : Int) else none
    else if (c :: rest).all Char.isDigit then some (digitsToNat (c :: rest) : Int)
    else none

/-- Modelled from the spec (KGML_pathway.py is not in the sources):
Graphics is an attribute bag with a non-owning back-reference to its owning
Entry, represented by that Entry's `id` attribute value. -/
structure Graphics where
  parent : Option String
  attrib : List (String × String)
deriving Repr, DecidableEq

/-- Modelled from the spec (KGML_pathway.py is not in the sources):
Component is an attribute bag with a non-owning back-reference to its owning
Entry, represented by that Entry's `id` attribute value. -/
structure Component where
  parent : Option String
  attrib : List (String × String)
deriving Repr, DecidableEq

/-- An Entry: attribute bag plus its owned Graphics and Component children
(appended in document order by the model's add-operations). -/
structure Entry where
  attrib : List (String × String)
  graphics : List Graphics
  components : List Component
deriving Repr, DecidableEq

/-- A Reaction: attribute bag plus ordered substrate and product entry-id
sequences (appended in document order by `add_substrate`/`add_product`,
modelled from the spec). -/
structure Reaction where
  attrib : List (String × String)
  substrates : List Int
  products : List Int
deriving Repr, DecidableEq

/-- A subtype value: integer when coerced, text otherwise. -/
inductive SubVal where
  | int (n : Int)
  | txt (s : String)
deriving Repr, DecidableEq

/-- A Relation: integer endpoints, type text, and the ordered subtype
(name, value) pairs. -/
structure Relation where
  entry1 : Int
  entry2 : Int
  type : String
  subtypes : List (String × SubVal)
deriving Repr, DecidableEq

/-- A Pathway: attribute bag plus its entry mapping (insertion-ordered,
keyed by integer entry id) and its reaction and relation sequences. -/
structure Pathway where
  attrib : List (String × String)
  entries : List (Int × Entry)
  reactions : List Reaction
  relations : List Relation
deriving Repr, DecidableEq

/-- Modelled from the spec (KGML_pathway.py is not in the sources): the
finished Entry is added to the Pathway's entry collection keyed by its `id`
attribute coerced to an integer by the model; a missing or non-integer id is
a hard failure. -/
def Pathway.add_entry (p : Pathway) (ent : Entry) : Except PErr Pathway :=
  match alookup ent.attrib "id" with
  | none => .error (.keyError "id")
  | some s =>
    match pyInt s with
    | none => .error (.valueError s)
    | some n => .ok { p with entries := p.entries ++ [(n, ent)] }

/-- Children loop of `_parse_entry` (KGML_parser.py lines 126-130): a
`graphics` child becomes a Graphics, a `component` child a Component, both
back-referencing the Entry (`pid` is the Entry's id attribute); any other
child tag is skipped silently. -/
def entryChildren (pid : Option String) : Entry → List XElem → Entry
  | ent, [] => ent
  | ent, c :: cs =>
    if c.tag = "graphics" then
      entryChildren pid { ent with graphics := ent.graphics ++ [⟨pid, c.attrib⟩] } cs
    else if c.tag = "component" then
      entryChildren pid { ent with components := ent.components ++ [⟨pid, c.attrib⟩] } cs
    else entryChildren pid ent cs

/-- `_parse_entry` (KGML_parser.py lines 122-131): copy all attributes onto
a new Entry, process its children, and add the finished Entry to the
Pathway. -/
def parseEntry (p : Pathway) (e : XElem) : Except PErr Pathway :=
  p.add_entry (entryChildren (alookup e.attrib "id") ⟨e.attrib, [], []⟩ e.children)

/-- Children loop of `_parse_reaction` (KGML_parser.py lines 149-153): a
`substrate` child appends `int(child.attrib[id])` to the substrates, a
`product` child likewise to the products; other tags are skipped. -/
def reactionChildren : Reaction → List XElem → Except PErr Reaction
  | r, [] => .ok r
  | r, c :: cs =>
    if c.tag = "substrate" then
      match alookup c.attrib "id" with
      | none => .error (.keyError "id")
      | some s =>
        match pyInt s with
        | none => .error (.valueError s)
        | some n => reactionChildren { r with substrates := r.substrates ++ [n] } cs
    else if c.tag = "product" then
      match alookup c.attrib "id" with
      | none => .error (.keyError "id")
      | some s =>
        match pyInt s with
        | none => .error (.valueError s)
        | some n => reactionChildren { r with products := r.products ++ [n] } cs
    else reactionChildren r cs

/-- `_parse_reaction` (KGML_parser.py lines 145-154): copy all attributes
onto a new Reaction, process its children, and append the Reaction to the
Pathway's reaction sequence. -/
def parseReaction (p : Pathway) (e : XElem) : Except PErr Pathway :=
  match reactionChildren ⟨e.attrib, [], []⟩ e.children with
  | .error err => .error err
  | .ok r => .ok { p with reactions := p.reactions ++ [r] }

/-- Children loop of `_parse_relation` (KGML_parser.py lines 161-166):
every child is treated as a subtype marker; its `name` and `value`
attributes are read (KeyError if absent), and the value is coerced with
`int` exactly when the name is "compound" or "hidden compound". -/
def relationSubtypes : List (String × SubVal) → List XElem → Except PErr (List (String × SubVal))
  | acc, [] => .ok acc
  | acc, c :: cs =>
    match alookup c.attrib "name" with
    | none => .error (.keyError "name")
    | some n =>
      match alookup c.attrib "value" with
      | none => .error (.keyError "value")
      | some v =>
        if n = "compound" ∨ n = "hidden compound" then
          match pyInt v with
          | none => .error (.valueError v)
          | some k => relationSubtypes (acc ++ [(n, .int k)]) cs
        else relationSubtypes (acc ++ [(n, .txt v)]) cs

/-- `_parse_relation` (KGML_parser.py lines 156-167): entry1 and entry2 are
`int(attrib[..])`, type is `attrib[type]`, then the subtype children are
collected; the finished Relation is appended to the Pathway. -/
def parseRelation (p : Pathway) (e : XElem) : Except PErr Pathway :=
  match alookup e.attrib "entry1" with
  | none => .error (.keyError "entry1")
  | some s1 =>
    match pyInt s1 with
    | none => .error (.valueError s1)
    | some n1 =>
      match alookup e.attrib "entry2" with
      | none => .error (.keyError "entry2")
      | some s2 =>
        match pyInt s2 with
        | none => .error (.valueError s2)
        | some n2 =>
          match alookup e.attrib "type" with
          | none => .error (.keyError "type")
          | some t =>
            match relationSubtypes [] e.children with
            | .error err => .error err
            | .ok sts => .ok { p with relations := p.relations ++ [⟨n1, n2, t, sts⟩] }

/-- Text printed for an unimplemented tag (KGML_parser.py line 184). -/
def warnMsg (t : String) : String :=
  "Warning: tag " ++ t ++ " not implemented in parser"

/-- One step of the dispatch loop of `KGMLParser.parse` (KGML_parser.py
lines 174-184), threading the Pathway under construction and the warnings
printed so far. -/
def stepChild (st : Pathway × List String) (c : XElem) : Except PErr (Pathway × List String) :=
  if c.tag = "entry" then
    match parseEntry st.1 c with
    | .error err => .error err
    | .ok p => .ok (p, st.2)
  else if c.tag = "reaction" then
    match parseReaction st.1 c with
    | .error err => .error err
    | .ok p => .ok (p, st.2)
  else if c.tag = "relation" then
    match parseRelation st.1 c with
    | .error err => .error err
    | .ok p => .ok (p, st.2)
  else .ok (st.1, st.2 ++ [warnMsg c.tag])

/-- The dispatch loop of `KGMLParser.parse` over the pathway element's
children. -/
def processChildren : Pathway × List String → List XElem → Except PErr (Pathway × List String)
  | st, [] => .ok st
  | st, c :: cs =>
    match stepChild st c with
    | .error err => .error err
    | .ok st2 => processChildren st2 cs

/-- `KGMLParser(elem).parse()` (KGML_parser.py lines 109-185): initialise an
empty Pathway, copy the root element's attributes onto it, then dispatch on
each child's tag.  The second component collects the warnings printed for
unimplemented tags. -/
def KGMLParser.parse (e : XElem) : Except PErr (Pathway × List String) :=
  processChildren (⟨e.attrib, [], [], []⟩, []) e.children

mutual

/-- The `iterparse` walk of the generator `parse` (KGML_parser.py lines
102-106) on one element subtree, in end-event (post) order: each element
whose tag is `pathway` produces one attempt `KGMLParser(elem).parse()` and
is then cleared (`elem.clear()` removes its children and attributes).
Returns the attempts in order together with the element as later end-events
see it. -/
def iterAux : XElem → List (Except PErr (Pathway × List String)) × XElem
  | .mk t a cs =>
    let r := iterList cs
    if t = "pathway" then
      (r.1 ++ [KGMLParser.parse (.mk t a r.2)], .mk t [] [])
    else (r.1, .mk t a r.2)

/-- `iterAux` over a list of sibling subtrees, left to right. -/
def iterList : List XElem → List (Except PErr (Pathway × List String)) × List XElem
  | [] => ([], [])
  | c :: cs =>
    let r1 := iterAux c
    let r2 := iterList cs
    (r1.1 ++ r2.1, r1.2 :: r2.2)

end

/-- The sequence of parse attempts the generator makes on a document. -/
def attempts (doc : XElem) : List (Except PErr (Pathway × List String)) :=
  (iterAux doc).1

mutual

/-- Number of `pathway`-tagged elements anywhere in the tree. -/
def countPathways : XElem → Nat
  | .mk t _ cs => (if t = "pathway" then 1 else 0) + countPathwaysList cs

def countPathwaysList : List XElem → Nat
  | [] => 0
  | c :: cs => countPathways c + countPathwaysList cs

end

mutual

/-- The element as it stands after the generator has walked it: every
`pathway`-tagged element has been cleared (attributes and children removed);
all other elements keep their tag and attributes. -/
def scrub : XElem → XElem
  | .mk t a cs => if t = "pathway" then .mk t [] [] else .mk t a (scrubList cs)

def scrubList : List XElem → List XElem
  | [] => []
  | c :: cs => scrub c :: scrubList cs

end

/-- The input accepted by `parse`/`read`: an open stream (an object with a
`read` attribute), a raw XML string, or anything else. -/
inductive Handle where
  | stream (doc : XElem)
  | str (doc : XElem)
  | other

/-- What a run of the generator observably produces: the pathways (with
their warnings) yielded before it either finished or raised. -/
structure GenResult where
  yields : List (Pathway × List String)
  err : Option PErr
deriving Repr, DecidableEq

/-- Collect a generator run from its attempt list: attempts succeed and are
yielded until the first raising one, which terminates the generator. -/
def truncateRun : List (Except PErr (Pathway × List String)) → GenResult
  | [] => ⟨[], none⟩
  | .ok x :: rest => let r := truncateRun rest; ⟨x :: r.yields, r.err⟩
  | .error e :: _ => ⟨[], some e⟩

/-- The generator `parse` (KGML_parser.py lines 85-106): a non-stream,
non-string handle raises; otherwise a string is wrapped and the stream is
walked with `iterparse`, yielding one Pathway per `pathway` end event. -/
def parse : Handle → Except PErr GenResult
  | .stream doc => .ok (truncateRun (attempts doc))
  | .str doc => .ok (truncateRun (attempts doc))
  | .other => .error .unsupportedInput

/-- The cardinality logic of `read` (KGML_parser.py lines 64-82) over the
generator's attempt sequence: an empty sequence gives the zero-documents
error, a successful second element the multiple-documents error, and an
exception raised by either `next()` call propagates. -/
def readAux : List (Except PErr (Pathway × List String)) → Except PErr Pathway
  | [] => .error .noPathways
  | .error e :: _ => .error e
  | .ok (p, _) :: rest =>
    match rest with
    | [] => .ok p
    | .error e :: _ => .error e
    | .ok _ :: _ => .error .multiplePathways

/-- `read` (KGML_parser.py lines 64-82): returns the single Pathway of the
handle, raising on zero or more than one. -/
def read : Handle → Except PErr Pathway
  | .stream doc => readAux (attempts doc)
  | .str doc => readAux (attempts doc)
  | .other => .error .unsupportedInput

/-- The integer a substrate/product child contributes: its `id` attribute
parsed with Python `int`; `none` when the attribute is absent or not
integer-parsable. -/
def idAsInt (c : XElem) : Option Int :=
  (alookup c.attrib "id").bind pyInt

/-- Stated from the claim for comparison with the source: the (name, value)
pair one subtype child produces, the value coerced to an integer exactly
when the name is "compound" or "hidden compound" and left as text
otherwise; `none` when a required attribute is absent or coercion fails. -/
def claimSubtypePair (c : XElem) : Option (String × SubVal) :=
  match alookup c.attrib "name", alookup c.attrib "value" with
  | some n, some v =>
    if n = "compound" ∨ n = "hidden compound" then
      match pyInt v with
      | some k => some (n, .int k)
      | none => none
    else some (n, .txt v)
  | _, _ => none

/-- Option-valued map over a list, succeeding only when every element
does. -/
def mapOpt (f : XElem → Option α) : List XElem → Option (List α)
  | [] => some []
  | c :: cs =>
    match f c, mapOpt f cs with
    | some b, some bs => some (b :: bs)
    | _, _ => none

/-- The attribute `k` of `x` is absent or not integer-parsable. -/
def badIntAttr (x : XElem) (k : String) : Prop :=
  (alookup x.attrib k).bind pyInt = none

/-- A reaction element with a substrate or product child whose `id`
attribute is absent or not integer-parsable. -/
def badReactionChild (x : XElem) : Prop :=
  x.tag = "reaction" ∧
    ∃ c ∈ x.children, (c.tag = "substrate" ∨ c.tag = "product") ∧ idAsInt c = none

/-- A relation element whose `entry1` or `entry2` attribute is absent or
not integer-parsable. -/
def badRelationAttrs (x : XElem) : Prop :=
  x.tag = "relation" ∧ (badIntAttr x "entry1" ∨ badIntAttr x "entry2")

/-- The empty Pathway, as `Pathway()` initialises it. -/
def pw0 : Pathway := ⟨[], [], [], []⟩

/-- Concrete relation element from the spec: entry1="1", entry2="2",
type="ECrel", one coerced and one uncoerced subtype child. -/
def c4elem : XElem :=
  .mk "relation" [("entry1", "1"), ("entry2", "2"), ("type", "ECrel")]
    [.mk "subtype" [("name", "compound"), ("value", "42")] [],
     .mk "subtype" [("name", "other"), ("value", "x")] []]

/-- Concrete reaction element from the spec: one substrate id=5 and two
products id=6, id=8 in document order. -/
def c5elem : XElem :=
  .mk "reaction" [("name", "rn:R00710")]
    [.mk "substrate" [("id", "5")] [],
     .mk "product" [("id", "6")] [],
     .mk "product" [("id", "8")] []]

/-- Concrete entry element from the spec: id 7, one graphics child
(x=10, y=20) and one component child (id=99). -/
def c8elem : XElem :=
  .mk "entry" [("id", "7")]
    [.mk "graphics" [("x", "10"), ("y", "20")] [],
     .mk "component" [("id", "99")] []]

/-- A source with two pathway elements whose second contains a relation
with no attributes. -/
def c1doc : XElem :=
  .mk "root" [] [.mk "pathway" [] [], .mk "pathway" [] [.mk "relation" [] []]]

/-- A pathway whose relation child holds a child with the unrecognized tag
`custom` and no attributes. -/
def c7doc : XElem :=
  .mk "pathway" []
    [.mk "relation" [("entry1", "1"), ("entry2", "2"), ("type", "maplink")]
      [.mk "custom" [] []]]

/-- A document whose only pathway element is nested two levels below the
root, inside non-pathway elements. -/
def c9doc : XElem := .mk "x" [] [.mk "y" [] [.mk "pathway" [] []]]

@[simp] theorem tag_mk (t : String) (a : List (String × String)) (cs : List XElem) :
    (XElem.mk t a cs).tag = t := rfl

@[simp] theorem attrib_mk (t : String) (a : List (String × String)) (cs : List XElem) :
    (XElem.mk t a cs).attrib = a := rfl

@[simp] theorem children_mk (t : String) (a : List (String × String)) (cs : List XElem) :
    (XElem.mk t a cs).children = cs := rfl

theorem entryChildren_eq (pid : Option String) (cs : List XElem) (ent : Entry) :
    entryChildren pid ent cs =
      { ent with
        graphics := ent.graphics ++
          ((cs.filter fun c => c.tag = "graphics").map fun c => ⟨pid, c.attrib⟩),
        components := ent.components ++
          ((cs.filter fun c => c.tag = "component").map fun c => ⟨pid, c.attrib⟩) } := by
  induction cs generalizing ent with
  | nil => simp [entryChildren]
  | cons c cs ih =>
    by_cases hg : c.tag = "graphics"
    · have hc : ¬(c.tag = "component") := by simp [hg]
      simp [entryChildren, hg, hc, ih, List.filter_cons]
    · by_cases hc : c.tag = "component"
      · simp [entryChildren, hg, hc, ih, List.filter_cons]
      · simp [entryChildren, hg, hc, ih, List.filter_cons]

theorem reactionChildren_ok (cs : List XElem) (r r2 : Reaction)
    (h : reactionChildren r cs = .ok r2) :
    ∃ ss ps,
      mapOpt idAsInt (cs.filter fun c => c.tag = "substrate") = some ss ∧
      mapOpt idAsInt (cs.filter fun c => c.tag = "product") = some ps ∧
      r2 = { r with substrates := r.substrates ++ ss, products := r.products ++ ps } := by
  induction cs generalizing r with
  | nil =>
    simp [reactionChildren] at h
    exact ⟨[], [], by simp [mapOpt], by simp [mapOpt], by simp [h]⟩
  | cons c cs ih =>
    by_cases hs : c.tag = "substrate"
    · rcases hl : alookup c.attrib "id" with _ | s
      · simp [reactionChildren, hs, hl] at h
      · rcases hp : pyInt s with _ | n
        · simp [reactionChildren, hs, hl, hp] at h
        · simp only [reactionChildren, hs, if_true, hl, hp] at h
          obtain ⟨ss, ps, h1, h2, h3⟩ := ih _ h
          have hprod : ¬(c.tag = "product") := by simp [hs]
          refine ⟨n :: ss, ps, ?_, ?_, ?_⟩
          · simp [List.filter_cons, hs, mapOpt, idAsInt, hl, hp, h1]
          · simp [List.filter_cons, hprod, h2]
          · simp [h3]
    · by_cases hpr : c.tag = "product"
      · rcases hl : alookup c.attrib "id" with _ | s
        · simp [reactionChildren, hs, hpr, hl] at h
        · rcases hp : pyInt s with _ | n
          · simp [reactionChildren, hs, hpr, hl, hp] at h
          · simp only [reactionChildren, hs, if_false, hpr, if_true, hl, hp] at h
            obtain ⟨ss, ps, h1, h2, h3⟩ := ih _ h
            refine ⟨ss, n :: ps, ?_, ?_, ?_⟩
            · simp [List.filter_cons, hs, h1]
            · simp [List.filter_cons, hpr, mapOpt, idAsInt, hl, hp, h2]
            · simp [h3]
      · simp only [reactionChildren, hs, hpr, if_false] at h
        obtain ⟨ss, ps, h1, h2, h3⟩ := ih _ h
        exact ⟨ss, ps, by simp [List.filter_cons, hs, h1], by simp [List.filter_cons, hpr, h2], h3⟩

theorem relationSubtypes_ok (cs : List XElem) (acc out : List (String × SubVal))
    (h : relationSubtypes acc cs = .ok out) :
    ∃ ts, mapOpt claimSubtypePair cs = some ts ∧ out = acc ++ ts := by
  induction cs generalizing acc with
  | nil =>
    simp [relationSubtypes] at h
    exact ⟨[], by simp [mapOpt], by simp [h]⟩
  | cons c cs ih =>
    rcases hn : alookup c.attrib "name" with _ | n
    · simp [relationSubtypes, hn] at h
    · rcases hv : alookup c.attrib "value" with _ | v
      · simp [relationSubtypes, hn, hv] at h
      · by_cases hcomp : n = "compound" ∨ n = "hidden compound"
        · rcases hp : pyInt v with _ | k
          · simp [relationSubtypes, hn, hv, hcomp, hp] at h
          · simp only [relationSubtypes, hn, hv, hcomp, if_true, hp] at h
            obtain ⟨ts, h1, h2⟩ := ih _ h
            exact ⟨(n, .int k) :: ts,
              by simp [mapOpt, claimSubtypePair, hn, hv, hcomp, hp, h1],
              by simp [h2]⟩
        · simp only [relationSubtypes, hn, hv, hcomp, if_false] at h
          obtain ⟨ts, h1, h2⟩ := ih _ h
          exact ⟨(n, .txt v) :: ts,
            by simp [mapOpt, claimSubtypePair, hn, hv, hcomp, h1],
            by simp [h2]⟩

theorem stepChild_shift (p : Pathway) (ws : List String) (c : XElem) :
    stepChild (p, ws) c = (stepChild (p, []) c).map fun pr => (pr.1, ws ++ pr.2) := by
  by_cases h1 : c.tag = "entry"
  · simp only [stepChild, h1, if_true]
    cases parseEntry p c <;> simp [Except.map]
  · by_cases h2 : c.tag = "reaction"
    · simp only [stepChild, h1, h2, if_true, if_false]
      cases parseReaction p c <;> simp [Except.map]
    · by_cases h3 : c.tag = "relation"
      · simp only [stepChild, h1, h2, h3, if_true, if_false]
        cases parseRelation p c <;> simp [Except.map]
      · simp [stepChild, h1, h2, h3, Except.map]

theorem processChildren_shift (cs : List XElem) (p : Pathway) (ws : List String) :
    processChildren (p, ws) cs = (processChildren (p, []) cs).map fun pr => (pr.1, ws ++ pr.2) := by
  induction cs generalizing p ws with
  | nil => simp [processChildren, Except.map]
  | cons c cs ih =>
    simp only [processChildren]
    rw [stepChild_shift]
    cases hsc : stepChild (p, []) c with
    | error e => simp [Except.map]
    | ok st2 =>
      obtain ⟨p2, w2⟩ := st2
      simp only [Except.map]
      rw [ih p2 (ws ++ w2), ih p2 w2]
      cases processChildren (p2, []) cs <;> simp [Except.map]

theorem processChildren_append (st : Pathway × List String) (xs ys : List XElem) :
    processChildren st (xs ++ ys) =
      match processChildren st xs with
      | .error e => .error e
      | .ok st2 => processChildren st2 ys := by
  induction xs generalizing st with
  | nil => simp [processChildren]
  | cons c xs ih =>
    simp only [List.cons_append, processChildren]
    cases stepChild st c <;> simp [ih]

theorem reactionChildren_bad (cs : List XElem)
    (h : ∃ c ∈ cs, (c.tag = "substrate" ∨ c.tag = "product") ∧ idAsInt c = none) :
    ∀ r, ∃ err, reactionChildren r cs = .error err := by
  induction cs with
  | nil => simp at h
  | cons c cs ih =>
    intro r
    by_cases hs : c.tag = "substrate"
    · rcases hl : alookup c.attrib "id" with _ | s
      · exact ⟨.keyError "id", by simp [reactionChildren, hs, hl]⟩
      · rcases hp : pyInt s with _ | n
        · exact ⟨.valueError s, by simp [reactionChildren, hs, hl, hp]⟩
        · have h2 : ∃ c2 ∈ cs, (c2.tag = "substrate" ∨ c2.tag = "product") ∧ idAsInt c2 = none := by
            rcases h with ⟨c2, hc2, hbad⟩
            rcases List.mem_cons.1 hc2 with rfl | hmem
            · exact absurd hbad.2 (by simp [idAsInt, hl, hp])
            · exact ⟨c2, hmem, hbad⟩
          obtain ⟨err, he⟩ := ih h2 { r with substrates := r.substrates ++ [n] }
          exact ⟨err, by simp [reactionChildren, hs, hl, hp, he]⟩
    · by_cases hpr : c.tag = "product"
      · rcases hl : alookup c.attrib "id" with _ | s
        · exact ⟨.keyError "id", by simp [reactionChildren, hs, hpr, hl]⟩
        · rcases hp : pyInt s with _ | n
          · exact ⟨.valueError s, by simp [reactionChildren, hs, hpr, hl, hp]⟩
          · have h2 : ∃ c2 ∈ cs, (c2.tag = "substrate" ∨ c2.tag = "product") ∧ idAsInt c2 = none := by
              rcases h with ⟨c2, hc2, hbad⟩
              rcases List.mem_cons.1 hc2 with rfl | hmem
              · exact absurd hbad.2 (by simp [idAsInt, hl, hp])
              · exact ⟨c2, hmem, hbad⟩
            obtain ⟨err, he⟩ := ih h2 { r with products := r.products ++ [n] }
            exact ⟨err, by simp [reactionChildren, hs, hpr, hl, hp, he]⟩
      · have h2 : ∃ c2 ∈ cs, (c2.tag = "substrate" ∨ c2.tag = "product") ∧ idAsInt c2 = none := by
          rcases h with ⟨c2, hc2, hbad⟩
          rcases List.mem_cons.1 hc2 with rfl | hmem
          · rcases hbad.1 with ht | ht
            · exact absurd ht hs
            · exact absurd ht hpr
          · exact ⟨c2, hmem, hbad⟩
        obtain ⟨err, he⟩ := ih h2 r
        exact ⟨err, by simp [reactionChildren, hs, hpr, he]⟩

theorem relationSubtypes_bad (cs : List XElem)
    (h : ∃ c ∈ cs, alookup c.attrib "name" = none ∨ alookup c.attrib "value" = none) :
    ∀ acc, ∃ err, relationSubtypes acc cs = .error err := by
  induction cs with
  | nil => simp at h
  | cons c cs ih =>
    intro acc
    rcases hn : alookup c.attrib "name" with _ | n
    · exact ⟨.keyError "name", by simp [relationSubtypes, hn]⟩
    · rcases hv : alookup c.attrib "value" with _ | v
      · exact ⟨.keyError "value", by simp [relationSubtypes, hn, hv]⟩
      · have h2 : ∃ c2 ∈ cs, alookup c2.attrib "name" = none ∨ alookup c2.attrib "value" = none := by
          rcases h with ⟨c2, hc2, hbad⟩
          rcases List.mem_cons.1 hc2 with rfl | hmem
          · rcases hbad with hb | hb
            · exact absurd hb (by simp [hn])
            · exact absurd hb (by simp [hv])
          · exact ⟨c2, hmem, hbad⟩
        by_cases hcomp : n = "compound" ∨ n = "hidden compound"
        · rcases hp : pyInt v with _ | k
          · exact ⟨.valueError v, by simp [relationSubtypes, hn, hv, hcomp, hp]⟩
          · obtain ⟨err, he⟩ := ih h2 (acc ++ [(n, SubVal.int k)])
            exact ⟨err, by simp [relationSubtypes, hn, hv, hcomp, hp, he]⟩
        · obtain ⟨err, he⟩ := ih h2 (acc ++ [(n, SubVal.txt v)])
          exact ⟨err, by simp [relationSubtypes, hn, hv, hcomp, he]⟩

theorem parseRelation_badAttrs (e : XElem) (p : Pathway)
    (h : badIntAttr e "entry1" ∨ badIntAttr e "entry2") :
    ∃ err, parseRelation p e = .error err := by
  rcases h1 : alookup e.attrib "entry1" with _ | s1
  · exact ⟨.keyError "entry1", by simp [parseRelation, h1]⟩
  · rcases hp1 : pyInt s1 with _ | n1
    · exact ⟨.valueError s1, by simp [parseRelation, h1, hp1]⟩
    · have h2 : badIntAttr e "entry2" := by
        rcases h with hb | hb
        · exact absurd hb (by simp [badIntAttr, h1, hp1])
        · exact hb
      rcases hl2 : alookup e.attrib "entry2" with _ | s2
      · exact ⟨.keyError "entry2", by simp [parseRelation, h1, hp1, hl2]⟩
      · rcases hp2 : pyInt s2 with _ | n2
        · exact ⟨.valueError s2, by simp [parseRelation, h1, hp1, hl2, hp2]⟩
        · exact absurd h2 (by simp [badIntAttr, hl2, hp2])

theorem stepChild_bad (x : XElem) (hx : badReactionChild x ∨ badRelationAttrs x) :
    ∀ st, ∃ err, stepChild st x = .error err := by
  intro st
  rcases hx with ⟨ht, c, hc, hbad⟩ | ⟨ht, hbad⟩
  · obtain ⟨err, he⟩ := reactionChildren_bad x.children ⟨c, hc, hbad⟩ ⟨x.attrib, [], []⟩
    exact ⟨err, by simp [stepChild, ht, parseReaction, he]⟩
  · obtain ⟨err, he⟩ := parseRelation_badAttrs x st.1 hbad
    exact ⟨err, by simp [stepChild, ht, he]⟩

theorem processChildren_bad (cs : List XElem) (x : XElem) (hmem : x ∈ cs)
    (hx : ∀ st, ∃ err, stepChild st x = .error err) :
    ∀ st, ∃ err, processChildren st cs = .error err := by
  induction cs with
  | nil => cases hmem
  | cons c cs ih =>
    intro st
    rcases List.mem_cons.1 hmem with rfl | hmem2
    · obtain ⟨err, he⟩ := hx st
      exact ⟨err, by simp [processChildren, he]⟩
    · rcases hstep : stepChild st c with err | st2
      · exact ⟨err, by simp [processChildren, hstep]⟩
      · obtain ⟨err, he⟩ := ih hmem2 st2
        exact ⟨err, by simp [processChildren, hstep, he]⟩

theorem attempts_length : ∀ e : XElem, (iterAux e).1.length = countPathways e := by
  intro e
  refine @XElem.rec (fun e => (iterAux e).1.length = countPathways e)
    (fun cs => (iterList cs).1.length = countPathwaysList cs) ?_ ?_ ?_ e
  · intro t a cs ih
    by_cases ht : t = "pathway" <;> (simp [iterAux, countPathways, ht, ih]; try omega)
  · simp [iterList, countPathwaysList]
  · intro c cs ih1 ih2
    simp [iterList, countPathwaysList, ih1, ih2]

theorem iterList_length (cs : List XElem) :
    (iterList cs).1.length = countPathwaysList cs := by
  induction cs with
  | nil => simp [iterList, countPathwaysList]
  | cons c cs ih => simp [iterList, countPathwaysList, ih, attempts_length]

theorem iterAux_snd : ∀ e : XElem, (iterAux e).2 = scrub e := by
  intro e
  refine @XElem.rec (fun e => (iterAux e).2 = scrub e)
    (fun cs => (iterList cs).2 = scrubList cs) ?_ ?_ ?_ e
  · intro t a cs ih
    by_cases ht : t = "pathway" <;> simp [iterAux, scrub, ht, ih]
  · simp [iterList, scrubList]
  · intro c cs ih1 ih2
    simp [iterList, scrubList, ih1, ih2]

theorem iterList_snd (cs : List XElem) : (iterList cs).2 = scrubList cs := by
  induction cs with
  | nil => simp [iterList, scrubList]
  | cons c cs ih => simp [iterList, scrubList, ih, iterAux_snd]

theorem scrubList_map (cs : List XElem) : scrubList cs = cs.map scrub := by
  induction cs with
  | nil => simp [scrubList]
  | cons c cs ih => simp [scrubList, ih]

theorem truncateRun_le (ats : List (Except PErr (Pathway × List String))) :
    (truncateRun ats).yields.length ≤ ats.length := by
  induction ats with
  | nil => simp [truncateRun]
  | cons a ats ih =>
    cases a with
    | ok x => simp [truncateRun]; omega
    | error e => simp [truncateRun]

theorem truncateRun_err_none (ats : List (Except PErr (Pathway × List String)))
    (h : (truncateRun ats).err = none) :
    (truncateRun ats).yields.length = ats.length := by
  induction ats with
  | nil => simp [truncateRun]
  | cons a ats ih =>
    cases a with
    | ok x =>
      simp [truncateRun] at h ⊢
      exact ih h
    | error e => simp [truncateRun] at h

theorem readAux_ok (ats : List (Except PErr (Pathway × List String))) (p : Pathway)
    (h : readAux ats = .ok p) : ∃ ws, ats = [.ok (p, ws)] := by
  match ats with
  | [] => simp [readAux] at h
  | .error e :: rest => simp [readAux] at h
  | .ok (q, ws) :: rest =>
    match rest with
    | [] =>
      simp [readAux] at h
      exact ⟨ws, by simp [h]⟩
    | .error e :: rest2 => simp [readAux] at h
    | .ok x :: rest2 => simp [readAux] at h

theorem attempts_count (doc : XElem) : (attempts doc).length = countPathways doc :=
  attempts_length doc

theorem scrub_preserves_bad (x : XElem) (hx : badReactionChild x ∨ badRelationAttrs x) :
    badReactionChild (scrub x) ∨ badRelationAttrs (scrub x) := by
  cases x with
  | mk t a cs =>
    rcases hx with ⟨ht, c, hc, htag, hbad⟩ | ⟨ht, hbad⟩
    · left
      have ht2 : t = "reaction" := by simpa using ht
      subst ht2
      refine ⟨by simp [scrub], scrub c, ?_, ?_, ?_⟩
      · simp [scrub, scrubList_map]
        exact ⟨c, hc, rfl⟩
      · cases c with
        | mk tc ac ccs =>
          rcases htag with h | h <;> simp at h <;> subst h <;> simp [scrub]
      · cases c with
        | mk tc ac ccs =>
          rcases htag with h | h <;> simp at h <;> subst h <;>
            simpa [scrub, idAsInt] using hbad
    · right
      have ht2 : t = "relation" := by simpa using ht
      subst ht2
      exact ⟨by simp [scrub], by simpa [badIntAttr, scrub] using hbad⟩

/-- C4: for every relation element that parses successfully, entry1 and
entry2 come from the entry1/entry2 attributes parsed as integers, type from
the type attribute as text, and the subtypes are exactly one (name, value)
pair per subtype child in document order, the value coerced to an integer
exactly when the name is "compound" or "hidden compound" and left as text
otherwise. -/
theorem C4_relation_fields (e : XElem) (p p2 : Pathway)
    (h : parseRelation p e = .ok p2) :
    ∃ r : Relation,
      p2 = { p with relations := p.relations ++ [r] } ∧
      (alookup e.attrib "entry1").bind pyInt = some r.entry1 ∧
      (alookup e.attrib "entry2").bind pyInt = some r.entry2 ∧
      alookup e.attrib "type" = some r.type ∧
      mapOpt claimSubtypePair e.children = some r.subtypes := by
  rcases h1 : alookup e.attrib "entry1" with _ | s1
  · simp [parseRelation, h1] at h
  · rcases hp1 : pyInt s1 with _ | n1
    · simp [parseRelation, h1, hp1] at h
    · rcases h2 : alookup e.attrib "entry2" with _ | s2
      · simp [parseRelation, h1, hp1, h2] at h
      · rcases hp2 : pyInt s2 with _ | n2
        · simp [parseRelation, h1, hp1, h2, hp2] at h
        · rcases h3 : alookup e.attrib "type" with _ | t
          · simp [parseRelation, h1, hp1, h2, hp2, h3] at h
          · rcases hrs : relationSubtypes [] e.children with er | sts
            · simp [parseRelation, h1, hp1, h2, hp2, h3, hrs] at h
            · simp [parseRelation, h1, hp1, h2, hp2, h3, hrs] at h
              obtain ⟨ts, hm, hts⟩ := relationSubtypes_ok _ _ _ hrs
              refine ⟨⟨n1, n2, t, sts⟩, h.symm, ?_, ?_, rfl, ?_⟩
              · simp [h1, hp1]
              · simp [h2, hp2]
              · simp at hts
                rw [hm, hts]

/-- C5: for every reaction element that parses successfully, the Reaction
carries the element's attributes verbatim, and its substrates and products
are the integer-parsed `id` attributes of the substrate-tagged and
product-tagged children respectively, in document order. -/
theorem C5_reaction_children (e : XElem) (p p2 : Pathway)
    (h : parseReaction p e = .ok p2) :
    ∃ r : Reaction,
      p2 = { p with reactions := p.reactions ++ [r] } ∧
      r.attrib = e.attrib ∧
      mapOpt idAsInt (e.children.filter fun c => c.tag = "substrate") = some r.substrates ∧
      mapOpt idAsInt (e.children.filter fun c => c.tag = "product") = some r.products := by
  rcases hr : reactionChildren ⟨e.attrib, [], []⟩ e.children with er | r
  · simp [parseReaction, hr] at h
  · simp [parseReaction, hr] at h
    obtain ⟨ss, ps, h1, h2, h3⟩ := reactionChildren_ok _ _ _ hr
    refine ⟨r, h.symm, ?_, ?_, ?_⟩
    · simp [h3]
    · simp [h3, h1]
    · simp [h3, h2]

/-- C8: for every entry element that parses successfully, the new Entry
carries the element's attributes verbatim, one Graphics per graphics-tagged
child and one Component per component-tagged child (attributes copied
verbatim, both back-referencing the Entry), and is added to the Pathway's
entry collection keyed by its integer-coerced id attribute. -/
theorem C8_entry_children (e : XElem) (p p2 : Pathway)
    (h : parseEntry p e = .ok p2) :
    ∃ s n, alookup e.attrib "id" = some s ∧ pyInt s = some n ∧
      p2 = { p with entries := p.entries ++ [(n,
        { attrib := e.attrib,
          graphics := (e.children.filter fun c => c.tag = "graphics").map
            fun c => ⟨alookup e.attrib "id", c.attrib⟩,
          components := (e.children.filter fun c => c.tag = "component").map
            fun c => ⟨alookup e.attrib "id", c.attrib⟩ })] } := by
  simp only [parseEntry, Pathway.add_entry, entryChildren_eq] at h
  rcases hid : alookup e.attrib "id" with _ | s
  · simp [hid] at h
  · rcases hp : pyInt s with _ | n
    · simp [hid, hp] at h
    · simp [hid, hp] at h
      exact ⟨s, n, rfl, hp, by rw [← h]⟩

/-- C10: for every relation element whose type attribute is absent, or with
a child whose name or value attribute is absent, parsing the relation
raises a hard failure. -/
theorem C10_relation_required (e : XElem) (p : Pathway)
    (h : alookup e.attrib "type" = none ∨
         ∃ c ∈ e.children, alookup c.attrib "name" = none ∨ alookup c.attrib "value" = none) :
    ∃ err, parseRelation p e = .error err := by
  rcases h1 : alookup e.attrib "entry1" with _ | s1
  · exact ⟨.keyError "entry1", by simp [parseRelation, h1]⟩
  · rcases hp1 : pyInt s1 with _ | n1
    · exact ⟨.valueError s1, by simp [parseRelation, h1, hp1]⟩
    · rcases h2 : alookup e.attrib "entry2" with _ | s2
      · exact ⟨.keyError "entry2", by simp [parseRelation, h1, hp1, h2]⟩
      · rcases hp2 : pyInt s2 with _ | n2
        · exact ⟨.valueError s2, by simp [parseRelation, h1, hp1, h2, hp2]⟩
        · rcases h3 : alookup e.attrib "type" with _ | t
          · exact ⟨.keyError "type", by simp [parseRelation, h1, hp1, h2, hp2, h3]⟩
          · have hch : ∃ c ∈ e.children,
                alookup c.attrib "name" = none ∨ alookup c.attrib "value" = none := by
              rcases h with hb | hb
              · exact absurd hb (by simp [h3])
              · exact hb
            obtain ⟨err, he⟩ := relationSubtypes_bad _ hch []
            exact ⟨err, by simp [parseRelation, h1, hp1, h2, hp2, h3, he]⟩

theorem processChildren_append_ok (st st1 : Pathway × List String) (xs ys : List XElem)
    (h : processChildren st xs = .ok st1) :
    processChildren st (xs ++ ys) = processChildren st1 ys := by
  rw [processChildren_append, h]

theorem processChildren_append_err (st : Pathway × List String) (e : PErr)
    (xs ys : List XElem) (h : processChildren st xs = .error e) :
    processChildren st (xs ++ ys) = .error e := by
  rw [processChildren_append, h]

theorem processChildren_cons_ok (st st2 : Pathway × List String) (c : XElem)
    (cs : List XElem) (h : stepChild st c = .ok st2) :
    processChildren st (c :: cs) = processChildren st2 cs := by
  simp [processChildren, h]

/-- C1 (amended): a source with zero pathway elements makes `read` raise
the zero-documents error; when the generator's first two attempts succeed
(in particular for a source of two or more pathway elements that parse
cleanly) `read` raises the multiple-documents error after obtaining the
second Pathway; and `read` returns normally only when exactly one pathway
element is present. -/
theorem C1_read_cardinality (doc : XElem) :
    (countPathways doc = 0 →
      read (.stream doc) = .error .noPathways ∧ read (.str doc) = .error .noPathways) ∧
    (∀ x y rest, attempts doc = .ok x :: .ok y :: rest →
      read (.stream doc) = .error .multiplePathways ∧
      read (.str doc) = .error .multiplePathways) ∧
    (∀ p, read (.stream doc) = .ok p → countPathways doc = 1) := by
  refine ⟨?_, ?_, ?_⟩
  · intro h0
    have hnil : attempts doc = [] :=
      List.length_eq_zero.1 (by rw [attempts_count, h0])
    constructor <;> simp [read, hnil, readAux]
  · intro x y rest h
    obtain ⟨p1, w1⟩ := x
    obtain ⟨p2, w2⟩ := y
    constructor <;> simp [read, h, readAux]
  · intro p hok
    simp only [read] at hok
    obtain ⟨ws, hats⟩ := readAux_ok _ p hok
    have hc := attempts_count doc
    rw [hats] at hc
    simpa using hc.symm

/-- C2: for every input on which the generator makes exactly one attempt
and it succeeds (exactly one pathway element, parsed without failure),
`read` returns exactly the Pathway that `parse` yields as its sole
element, for a stream handle and for a string handle alike. -/
theorem C2_read_matches_parse (doc : XElem) (p : Pathway) (ws : List String)
    (h : attempts doc = [.ok (p, ws)]) :
    countPathways doc = 1 ∧
    parse (.stream doc) = .ok ⟨[(p, ws)], none⟩ ∧
    read (.stream doc) = .ok p ∧ read (.str doc) = .ok p := by
  refine ⟨?_, ?_, ?_, ?_⟩
  · have hc := attempts_count doc
    rw [h] at hc
    simpa using hc.symm
  · simp [parse, h, truncateRun]
  · simp [read, h, readAux]
  · simp [read, h, readAux]

/-- C3: a handle that is neither a readable stream nor a string makes both
`parse` and `read` fail with the unsupported-input-type error, with no XML
processing (no generator attempt, no yield) having taken place. -/
theorem C3_unsupported_input (h : Handle) (hyp : ∀ doc, h ≠ .stream doc ∧ h ≠ .str doc) :
    parse h = .error .unsupportedInput ∧ read h = .error .unsupportedInput := by
  cases h with
  | stream doc => exact absurd rfl (hyp doc).1
  | str doc => exact absurd rfl (hyp doc).2
  | other => exact ⟨rfl, rfl⟩

/-- C6: a pathway element with a reaction child holding a substrate or
product child whose id attribute is absent or not integer-parsable, or with
a relation child whose entry1 or entry2 attribute is absent or not
integer-parsable, fails to parse, and `read` on a document rooted at that
pathway element propagates a hard failure rather than returning a
Pathway. -/
theorem C6_required_attrs (a : List (String × String)) (cs : List XElem)
    (h : ∃ x ∈ cs, badReactionChild x ∨ badRelationAttrs x) :
    (∃ err, KGMLParser.parse (.mk "pathway" a cs) = .error err) ∧
    ∀ p, read (.stream (.mk "pathway" a cs)) ≠ .ok p := by
  have hparse : ∀ (a2 : List (String × String)) (cs2 : List XElem),
      (∃ x2 ∈ cs2, badReactionChild x2 ∨ badRelationAttrs x2) →
      ∃ err, KGMLParser.parse (XElem.mk "pathway" a2 cs2) = .error err := by
    rintro a2 cs2 ⟨x2, hmem2, hx2⟩
    obtain ⟨err, he⟩ :=
      processChildren_bad cs2 x2 hmem2 (stepChild_bad x2 hx2) (⟨a2, [], [], []⟩, [])
    exact ⟨err, by simpa [KGMLParser.parse] using he⟩
  refine ⟨hparse a cs h, ?_⟩
  intro p hok
  simp only [read] at hok
  obtain ⟨ws, hats⟩ := readAux_ok _ p hok
  have hat : attempts (XElem.mk "pathway" a cs) =
      (iterList cs).1 ++ [KGMLParser.parse (.mk "pathway" a (scrubList cs))] := by
    simp [attempts, iterAux, iterList_snd]
  have hbad2 : ∃ x2 ∈ scrubList cs, badReactionChild x2 ∨ badRelationAttrs x2 := by
    obtain ⟨x, hmem, hx⟩ := h
    exact ⟨scrub x, by rw [scrubList_map]; exact List.mem_map_of_mem scrub hmem,
      scrub_preserves_bad x hx⟩
  obtain ⟨err, he⟩ := hparse a (scrubList cs) hbad2
  rw [hat, he] at hats
  have hlen := congrArg List.length hats
  simp at hlen
  rw [hlen] at hats
  simp at hats

/-- C7 (amended): an element with an unrecognized tag appearing as a direct
child of the pathway element does not raise: the dispatch step leaves the
Pathway unchanged and appends a warning naming the tag, and all valid
siblings are still parsed into the same Pathway. -/
theorem C7_amended_unknown_tag (t : String) (a : List (String × String))
    (pre post : List XElem) (u : XElem)
    (hu : u.tag ≠ "entry" ∧ u.tag ≠ "reaction" ∧ u.tag ≠ "relation") :
    (∀ p ws, stepChild (p, ws) u = .ok (p, ws ++ [warnMsg u.tag])) ∧
    ∀ q ws, KGMLParser.parse (.mk t a (pre ++ post)) = .ok (q, ws) →
      ∃ ws2, KGMLParser.parse (.mk t a (pre ++ u :: post)) = .ok (q, ws2) ∧
        warnMsg u.tag ∈ ws2 := by
  obtain ⟨h1, h2, h3⟩ := hu
  have hstep : ∀ p ws, stepChild (p, ws) u = .ok (p, ws ++ [warnMsg u.tag]) := by
    intro p ws
    simp [stepChild, h1, h2, h3]
  refine ⟨hstep, ?_⟩
  intro q ws h
  simp only [KGMLParser.parse, children_mk, attrib_mk] at h ⊢
  rcases hpre : processChildren (⟨a, [], [], []⟩, []) pre with e | st1
  · rw [processChildren_append_err _ _ _ _ hpre] at h
    simp at h
  · obtain ⟨p1, w1⟩ := st1
    rw [processChildren_append_ok _ _ _ _ hpre] at h
    rw [processChildren_shift] at h
    rcases hpost : processChildren (p1, []) post with e | qw
    · rw [hpost] at h
      simp [Except.map] at h
    · rw [hpost] at h
      obtain ⟨q0, w0⟩ := qw
      simp [Except.map] at h
      obtain ⟨hq, hw⟩ := h
      rw [processChildren_append_ok _ _ _ _ hpre]
      rw [processChildren_cons_ok _ _ _ _ (hstep p1 w1)]
      rw [processChildren_shift, hpost]
      refine ⟨(w1 ++ [warnMsg u.tag]) ++ w0, ?_, ?_⟩
      · simp [Except.map, hq, hw]
      · simp

/-- C9 (amended): the generator makes exactly one parse attempt per
pathway-tagged element anywhere in the document (nested ones included), so
the yielded sequence is finite, bounded by the number of pathway elements,
with equality whenever no attempt raises. -/
theorem C9_yields_per_pathway (doc : XElem) :
    (attempts doc).length = countPathways doc ∧
    ∀ g, parse (.stream doc) = .ok g →
      g.yields.length ≤ countPathways doc ∧
      (g.err = none → g.yields.length = countPathways doc) := by
  refine ⟨attempts_count doc, ?_⟩
  intro g hg
  simp only [parse, Except.ok.injEq] at hg
  subst hg
  constructor
  · rw [← attempts_count doc]
    exact truncateRun_le _
  · intro he
    rw [← attempts_count doc]
    exact truncateRun_err_none _ he

/-- C1 counterexample: a source with two pathway elements whose second
contains an attribute-less relation makes `read` raise the KeyError for
`entry1`, not the multiple-documents error the claim promises for every
source with two or more pathway elements. -/
theorem C1_cex :
    countPathways c1doc = 2 ∧
    read (.stream c1doc) = .error (.keyError "entry1") ∧
    read (.stream c1doc) ≠ .error .multiplePathways := by decide

/-- C1 witness: a source with two cleanly parsing pathway elements makes
`read` raise the multiple-documents error. -/
theorem C1_witness :
    read (.stream (.mk "r" [] [.mk "pathway" [] [], .mk "pathway" [] []])) =
        .error .multiplePathways ∧
    read (.str (.mk "r" [] [.mk "pathway" [] [], .mk "pathway" [] []])) =
        .error .multiplePathways :=
  (C1_read_cardinality (.mk "r" [] [.mk "pathway" [] [], .mk "pathway" [] []])).2.1
    (⟨[], [], [], []⟩, []) (⟨[], [], [], []⟩, []) [] (by decide)

/-- C2 witness: on a single-pathway source, `read` returns exactly the
Pathway that `parse` yields as its sole element. -/
theorem C2_witness :
    countPathways (.mk "pathway" [("name", "p")] []) = 1 ∧
    parse (.stream (.mk "pathway" [("name", "p")] [])) =
      .ok ⟨[(⟨[("name", "p")], [], [], []⟩, [])], none⟩ ∧
    read (.stream (.mk "pathway" [("name", "p")] [])) = .ok ⟨[("name", "p")], [], [], []⟩ ∧
    read (.str (.mk "pathway" [("name", "p")] [])) = .ok ⟨[("name", "p")], [], [], []⟩ :=
  C2_read_matches_parse (.mk "pathway" [("name", "p")] [])
    ⟨[("name", "p")], [], [], []⟩ [] (by decide)

/-- C3 witness: the non-stream, non-string handle is rejected by both
`parse` and `read`. -/
theorem C3_witness :
    parse .other = .error .unsupportedInput ∧ read .other = .error .unsupportedInput :=
  C3_unsupported_input .other fun _ => ⟨nofun, nofun⟩

/-- C4 witness: the spec's concrete relation example, with the compound
subtype value coerced to the integer 42 and the other subtype left as
text. -/
theorem C4_witness :
    ∃ r : Relation,
      (⟨[], [], [],
        [⟨1, 2, "ECrel", [("compound", SubVal.int 42), ("other", SubVal.txt "x")]⟩]⟩ : Pathway) =
        { pw0 with relations := pw0.relations ++ [r] } ∧
      (alookup c4elem.attrib "entry1").bind pyInt = some r.entry1 ∧
      (alookup c4elem.attrib "entry2").bind pyInt = some r.entry2 ∧
      alookup c4elem.attrib "type" = some r.type ∧
      mapOpt claimSubtypePair c4elem.children = some r.subtypes :=
  C4_relation_fields c4elem pw0 _ (by decide)

/-- C5 witness: the spec's concrete reaction example, with substrates [5]
and products [6, 8] in document order. -/
theorem C5_witness :
    ∃ r : Reaction,
      (⟨[], [], [⟨[("name", "rn:R00710")], [5], [6, 8]⟩], []⟩ : Pathway) =
        { pw0 with reactions := pw0.reactions ++ [r] } ∧
      r.attrib = c5elem.attrib ∧
      mapOpt idAsInt (c5elem.children.filter fun c => c.tag = "substrate") = some r.substrates ∧
      mapOpt idAsInt (c5elem.children.filter fun c => c.tag = "product") = some r.products :=
  C5_reaction_children c5elem pw0 _ (by decide)

/-- C6 witness: a pathway whose relation child has no attributes fails to
parse and makes `read` fail. -/
theorem C6_witness :
    (∃ err, KGMLParser.parse (.mk "pathway" [] [.mk "relation" [] []]) = .error err) ∧
    ∀ p, read (.stream (.mk "pathway" [] [.mk "relation" [] []])) ≠ .ok p :=
  C6_required_attrs [] [.mk "relation" [] []]
    ⟨.mk "relation" [] [], by simp, Or.inr ⟨rfl, Or.inl rfl⟩⟩

/-- C7 counterexample: the unrecognized tag `custom` on a child of a
relation element makes parsing raise the KeyError for `name` instead of
being skipped with a warning, refuting the claim for unrecognized tags
appearing anywhere. -/
theorem C7_cex :
    (XElem.mk "custom" [] []).tag ∉
      ["pathway", "entry", "reaction", "relation", "graphics", "component",
       "substrate", "product"] ∧
    KGMLParser.parse c7doc = .error (.keyError "name") ∧
    read (.stream c7doc) = .error (.keyError "name") := by decide

/-- C7 witness: an unrecognized `custom` element next to a valid entry
sibling is skipped with a warning naming it, and the entry is still
parsed. -/
theorem C7_witness :
    ∃ ws2, KGMLParser.parse (.mk "pathway" []
        ([.mk "entry" [("id", "4")] []] ++ (XElem.mk "custom" [] []) :: [])) =
      .ok (⟨[], [(4, ⟨[("id", "4")], [], []⟩)], [], []⟩, ws2) ∧
      warnMsg (XElem.mk "custom" [] []).tag ∈ ws2 :=
  (C7_amended_unknown_tag "pathway" [] [.mk "entry" [("id", "4")] []] []
      (.mk "custom" [] []) (by decide)).2
    ⟨[], [(4, ⟨[("id", "4")], [], []⟩)], [], []⟩ [] (by decide)

/-- C8 witness: the spec's concrete entry example, id 7 with one Graphics
(x="10", y="20") and one Component (id "99"), both back-referencing the
entry. -/
theorem C8_witness :
    ∃ s n, alookup c8elem.attrib "id" = some s ∧ pyInt s = some n ∧
      (⟨[], [(7, ⟨[("id", "7")],
          [⟨some "7", [("x", "10"), ("y", "20")]⟩],
          [⟨some "7", [("id", "99")]⟩]⟩)], [], []⟩ : Pathway) =
        { pw0 with entries := pw0.entries ++ [(n,
          { attrib := c8elem.attrib,
            graphics := (c8elem.children.filter fun c => c.tag = "graphics").map
              fun c => ⟨alookup c8elem.attrib "id", c.attrib⟩,
            components := (c8elem.children.filter fun c => c.tag = "component").map
              fun c => ⟨alookup c8elem.attrib "id", c.attrib⟩ })] } :=
  C8_entry_children c8elem pw0 _ (by decide)

/-- C9 counterexample: a document whose only pathway element is nested two
levels deep still produces one yield, refuting the claim that nested
pathway elements do not produce yields. -/
theorem C9_cex :
    c9doc.tag ≠ "pathway" ∧
    (c9doc.children.all fun c => c.tag ≠ "pathway") ∧
    parse (.stream c9doc) = .ok ⟨[(pw0, [])], none⟩ := by decide

/-- C9 witness: a single top-level pathway element gives one attempt and
one yield. -/
theorem C9_witness :
    (attempts (.mk "pathway" [] [])).length = countPathways (.mk "pathway" [] []) ∧
    (⟨[(pw0, [])], none⟩ : GenResult).yields.length ≤ countPathways (.mk "pathway" [] []) ∧
    ((⟨[(pw0, [])], none⟩ : GenResult).err = none →
      (⟨[(pw0, [])], none⟩ : GenResult).yields.length = countPathways (.mk "pathway" [] [])) :=
  ⟨(C9_yields_per_pathway (.mk "pathway" [] [])).1,
   (C9_yields_per_pathway (.mk "pathway" [] [])).2 ⟨[(pw0, [])], none⟩ (by decide)⟩

/-- C10 witness: a relation element with entry1 and entry2 but no type
attribute fails to parse. -/
theorem C10_witness :
    ∃ err, parseRelation pw0 (.mk "relation" [("entry1", "1"), ("entry2", "2")] []) =
      .error err :=
  C10_relation_required (.mk "relation" [("entry1", "1"), ("entry2", "2")] []) pw0
    (Or.inl (by decide))

end KGML
